import Mathlib

set_option autoImplicit false

/-!
Verification of the Fusion-Validate-Transform pipeline of the
`xml_to_web_app` repository, as a shallow embedding in Lean.

Conventions of the embedding:
* Python strings are Lean `String` (a list of unicode scalar values), and
  character-level scanning is done on `List Char`.
* Python `str.replace`, `str.strip`, `str.lower` and the concrete regular
  expressions used by the source are implemented directly, restricted to the
  ASCII character classes (`\w`, `\s`) that the claims exercise.
* Python `set` objects are modelled as duplicate-free lists in insertion
  order; CPython iteration order of a `set` is unspecified, insertion order
  is one concrete realization (the source never sorts a set before
  returning it, which is what matters below).
* `xml.etree.ElementTree` elements are modelled by the `XTree` inductive;
  parsing (an external library call) is abstracted as an `Except` value,
  and `text = ""` stands for Python `None` (both are falsy and the source
  only ever tests truthiness).
-/

namespace Philidor

/-- Characters of the ASCII whitespace class: what Python's `str.strip()`
and the regex class `\s` accept (restricted to ASCII). -/
def pyIsSpace (c : Char) : Bool :=
  c = ' ' || c = '\t' || c = '\n' || c = '\r' || c = '\x0b' || c = '\x0c'

/-- Python `str.strip()`: removes leading and trailing whitespace. -/
def pyStrip (s : String) : String :=
  String.mk (((s.toList.dropWhile pyIsSpace).reverse.dropWhile pyIsSpace).reverse)

/-- Python truthiness of a (possibly absent) string: `None` and `""` are
both falsy; the embedding uses `""` for both. -/
def pyTruthy (s : String) : Bool := s ≠ ""

/-- Python `str.replace(old, new)` scanning core: leftmost, non-overlapping
replacement of every occurrence of `pat`, left to right.  Fuel-based
recursion: fuel equal to the length of the text suffices because every step
consumes at least one character when `pat` is non-empty. -/
def pyReplaceAux (pat rep : List Char) : Nat → List Char → List Char
  | 0, s => s
  | Nat.succ f, s =>
    match s with
    | [] => []
    | c :: cs =>
      if pat.isPrefixOf (c :: cs) then
        rep ++ pyReplaceAux pat rep f (List.drop pat.length (c :: cs))
      else
        c :: pyReplaceAux pat rep f cs

/-- Python `s.replace(pat, rep)` for a non-empty pattern (the source only
ever replaces non-empty literals; the empty-pattern case is unused and
modelled as the identity). -/
def pyReplace (s pat rep : String) : String :=
  if pat.toList = [] then s
  else String.mk (pyReplaceAux pat.toList rep.toList s.toList.length s.toList)

/-- Occurrence check: `occursIn pat s` is true when `pat` appears as a
contiguous substring of `s` (Python's `pat in s`). -/
def occursIn (pat : List Char) : List Char → Bool
  | [] => pat.isEmpty
  | c :: cs => pat.isPrefixOf (c :: cs) || occursIn pat cs

namespace XMLProcessor

/-- Embeds `XMLProcessor._clean_xml_content` (core/xml_processor.py, lines
80-92): three fixed textual substitutions applied in order.  The
`try/except` wrapper in the source is dead code for string input because
`str.replace` never raises. -/
def clean_xml_content (xml_content : String) : String :=
  pyReplace
    (pyReplace
      (pyReplace xml_content "<Anonyme>" "<item key=\"Anonyme\">")
      "</Anonyme>" "</item>")
    "<nomsFonctions><item key=\"\"></item></nomsFonctions>" ""

end XMLProcessor

/-! Lemmas: replacing a pattern that does not occur is the identity. -/

/-! HTML entity decoding (`html.unescape`), as used by the result packager. -/

/-- Hexadecimal digit test for `&#x...;` character references. -/
def isHexDigit (c : Char) : Bool :=
  c.isDigit || ('a' ≤ c && c ≤ 'f') || ('A' ≤ c && c ≤ 'F')

/-- Value of a hexadecimal digit. -/
def hexDigitVal (c : Char) : Nat :=
  if c.isDigit then c.toNat - 48
  else if 'a' ≤ c then c.toNat - 87
  else c.toNat - 55

/-- Reads a digit string in the given base, most significant digit first. -/
def natOfDigits (base : Nat) (v : Char → Nat) (ds : List Char) : Nat :=
  ds.foldl (fun a c => a * base + v c) 0

/-- A numeric character reference denotes a usable character when it is a
nonzero unicode scalar value. -/
def validScalar (n : Nat) : Bool :=
  n ≠ 0 && (n < 0xD800 || (0xE000 ≤ n && n < 0x110000))

/-- The named entities recognised by the model: the five XML entities
(the source's transformation output only produces these and numeric
references; `html.unescape` additionally knows the full HTML5 name table,
which the modelled texts never use). -/
def namedEntities : List (List Char × List Char) :=
  [("amp;".toList, "&".toList), ("lt;".toList, "<".toList),
   ("gt;".toList, ">".toList), ("quot;".toList, "\"".toList),
   ("apos;".toList, "'".toList)]

/-- Consumes an optional terminating semicolon of a numeric reference. -/
def consumeSemi : List Char → List Char
  | ';' :: r => r
  | r => r

/-- Looks the input up against the named-entity table: on a match returns
the replacement and the input after the consumed name. -/
def findNamed : List (List Char × List Char) → List Char → Option (List Char × List Char)
  | [], _ => none
  | (key, rep) :: t, s =>
    if key.isPrefixOf s then some (rep, s.drop key.length) else findNamed t s

/-- Matches one character reference immediately after an ampersand:
either `#x<hex>` / `#<dec>` (optional semicolon, valid scalar values only)
or a named entity.  Returns replacement text and remaining input; consumes
at least the reference's own characters. -/
def tryCharref (s : List Char) : Option (List Char × List Char) :=
  match s with
  | '#' :: rest =>
    match rest with
    | x :: rest2 =>
      if x = 'x' || x = 'X' then
        let ds := rest2.takeWhile isHexDigit
        if ds.isEmpty then none
        else
          let n := natOfDigits 16 hexDigitVal ds
          if validScalar n then
            some ([Char.ofNat n], consumeSemi (rest2.dropWhile isHexDigit))
          else none
      else
        let ds := rest.takeWhile Char.isDigit
        if ds.isEmpty then none
        else
          let n := natOfDigits 10 (fun c => c.toNat - 48) ds
          if validScalar n then
            some ([Char.ofNat n], consumeSemi (rest.dropWhile Char.isDigit))
          else none
    | [] => none
  | _ => findNamed namedEntities s

/-- Scanning core of `html.unescape`: replaces every character reference,
left to right; replacement text is not rescanned within the same pass.
Fuel equal to the length of the input suffices, each step consuming at
least one character. -/
def unescapeAux : Nat → List Char → List Char
  | 0, s => s
  | Nat.succ f, s =>
    match s with
    | [] => []
    | c :: cs =>
      if c = '&' then
        match tryCharref cs with
        | some (rep, rest) => rep ++ unescapeAux f rest
        | none => '&' :: unescapeAux f cs
      else c :: unescapeAux f cs

/-- Python `html.unescape` (restricted as described at `namedEntities`). -/
def html_unescape (s : String) : String :=
  String.mk (unescapeAux s.toList.length s.toList)

namespace XSLTTransformationEngine

/-- Embeds `XSLTTransformationEngine.decode_html_entities`
(core/transformer_engine.py, lines 22-30): the file's text is passed
through `html.unescape` twice and written back; the embedding models the
text rewriting. -/
def decode_html_entities (content : String) : String :=
  html_unescape (html_unescape content)

end XSLTTransformationEngine

/-- A text contains a double-encoded entity precisely when a second
unescape pass still changes the once-unescaped text. -/
def hasDoubleEncoding (s : String) : Bool :=
  html_unescape (html_unescape s) ≠ html_unescape s

/-! Model of `xml.etree.ElementTree` elements. -/

/-- An XML element: tag, attributes in document order, text (the text
directly inside the element, before any child), tail (the text following
the element's end tag), and child elements.  `""` models Python `None`
for text and tail. -/
inductive XTree where
  | mk (tag : String) (attrs : List (String × String)) (text tail : String)
       (children : List XTree)

def XTree.tag : XTree → String
  | .mk t _ _ _ _ => t

def XTree.attrs : XTree → List (String × String)
  | .mk _ a _ _ _ => a

def XTree.text : XTree → String
  | .mk _ _ tx _ _ => tx

def XTree.tail : XTree → String
  | .mk _ _ _ tl _ => tl

def XTree.children : XTree → List XTree
  | .mk _ _ _ _ cs => cs

/-- Python `elem.attrib.get(k)`: dictionary lookup (keys are unique, the
first matching entry wins). -/
def XTree.get (e : XTree) (k : String) : Option String :=
  (e.attrs.find? (fun p => p.1 == k)).map (fun p => p.2)

mutual
/-- Document-order element sequence of `root.iter()`: the element itself
followed by all of its descendants, depth first. -/
def iterT : XTree → List XTree
  | .mk t a tx tl cs => .mk t a tx tl cs :: iterF cs

/-- Document-order element sequence of a forest of siblings. -/
def iterF : List XTree → List XTree
  | [] => []
  | c :: cs => iterT c ++ iterF cs
end

/-- Children of an element carrying a given tag, in document order. -/
def childrenNamed (n : String) (e : XTree) : List XTree :=
  e.children.filter (fun c => c.tag == n)

/-- Python `str.lower()` (ASCII case folding). -/
def pyLower (s : String) : String :=
  String.mk (s.toList.map Char.toLower)

/-! Python `set` objects as duplicate-free lists in insertion order. -/

/-- Adding one element to a Python set: a no-op when already present. -/
def pySetAdd (acc : List String) (x : String) : List String :=
  if x ∈ acc then acc else acc ++ [x]

/-- Python `set.update(xs)`: add every element in turn. -/
def pySetExtend (acc : List String) (xs : List String) : List String :=
  xs.foldl pySetAdd acc

/-- Python `set(xs)` built by adding the elements of `xs` in order. -/
def pySetOfList (xs : List String) : List String :=
  xs.foldl pySetAdd []

/-! Python `sorted` on strings: ascending lexicographic order by unicode
code point, modelled as an insertion sort. -/

/-- Lexicographic strictly-less comparison on character lists. -/
def charListLt : List Char → List Char → Bool
  | [], [] => false
  | [], _ :: _ => true
  | _ :: _, [] => false
  | a :: as, b :: bs => if a = b then charListLt as bs else decide (a < b)

/-- Python string comparison `a < b`. -/
def strLtPy (a b : String) : Bool := charListLt a.toList b.toList

/-- Inserts into a sorted list, keeping ascending order. -/
def insertSorted (x : String) : List String → List String
  | [] => [x]
  | y :: ys => if strLtPy x y then x :: y :: ys else y :: insertSorted x ys

/-- Python `sorted(l)` for a list of strings. -/
def pySortedList (l : List String) : List String := l.foldr insertSorted []

/-- Checks that a list of strings is ascending (every adjacent pair in
order), the property Python's `sorted` guarantees. -/
def isSortedAsc : List String → Bool
  | [] => true
  | [_] => true
  | a :: b :: t => !strLtPy b a && isSortedAsc (b :: t)

/-! The four regular expressions of `find_project_references`
(utils/xml_utils.py, lines 147-152), with `re.IGNORECASE`, modelled as
deterministic matchers over `List Char`.  The class `\w` is modelled as
ASCII alphanumerics plus underscore. -/

/-- Membership in the regex class `\w` (ASCII fragment). -/
def isWordChar (c : Char) : Bool := c.isAlphanum || c = '_'

/-- Case-insensitive literal matching: on success returns the rest of the
input after the literal. -/
def matchLitCI : List Char → List Char → Option (List Char)
  | [], s => some s
  | _ :: _, [] => none
  | p :: ps, c :: cs => if p.toLower = c.toLower then matchLitCI ps cs else none

/-- Matcher for `lit[_-](\w+)` at the current position (patterns 1 and 2,
with `lit` being `project` or `proj`): the literal, one separator, then a
greedy non-empty word run, which is the capture.  Returns capture and
remaining input. -/
def tryMatchLitSepWord (lit : List Char) (s : List Char) :
    Option (List Char × List Char) :=
  match matchLitCI lit s with
  | none => none
  | some r1 =>
    match r1 with
    | sep :: r2 =>
      if sep = '_' || sep = '-' then
        let run := r2.takeWhile isWordChar
        if run.isEmpty then none
        else some (run, r2.dropWhile isWordChar)
      else none
    | [] => none

/-- Backtracking search for pattern 3, `(\w+)[_-]project`: tries capture
lengths from `L` down to 1 (the greedy order of `\w+`), requiring a
separator and the literal `project` right after the capture. -/
def tm3Go (s : List Char) : Nat → Option (List Char × List Char)
  | 0 => none
  | Nat.succ L =>
    match s.drop (L + 1) with
    | c :: r2 =>
      if c = '_' || c = '-' then
        match matchLitCI "project".toList r2 with
        | some r3 => some (s.take (L + 1), r3)
        | none => tm3Go s L
      else tm3Go s L
    | [] => tm3Go s L

/-- Matcher for `(\w+)[_-]project` at the current position: the capture is
the longest word run followed by a separator and `project`. -/
def tryMatch3 (s : List Char) : Option (List Char × List Char) :=
  tm3Go s (s.takeWhile isWordChar).length

/-- Consumes one optional quote character (`["\']?`); the quote cannot be
matched by any later pattern part, so consuming it when present is the
only viable alternative. -/
def optQuote : List Char → List Char
  | [] => []
  | c :: r => if c = '"' || c = '\'' then r else c :: r

/-- Matcher for pattern 4, `project["\']?\s*[:=]\s*["\']?(\w+)`, at the
current position. -/
def tryMatch4 (s : List Char) : Option (List Char × List Char) :=
  match matchLitCI "project".toList s with
  | none => none
  | some r1 =>
    let r2 := (optQuote r1).dropWhile pyIsSpace
    match r2 with
    | c :: r4 =>
      if c = ':' || c = '=' then
        let r6 := optQuote (r4.dropWhile pyIsSpace)
        let run := r6.takeWhile isWordChar
        if run.isEmpty then none
        else some (run, r6.dropWhile isWordChar)
      else none
    | [] => none

/-- Scanning core of `re.findall` for a single-group pattern: tries the
matcher at every position left to right; on a match records the capture
and continues after the whole match (non-overlapping), otherwise advances
one character.  Fuel equal to the input length suffices because every
matcher consumes at least one character. -/
def findallAux (m : List Char → Option (List Char × List Char)) :
    Nat → List Char → List (List Char)
  | 0, _ => []
  | Nat.succ f, s =>
    match s with
    | [] => []
    | c :: cs =>
      match m (c :: cs) with
      | some (cap, rest) => cap :: findallAux m f rest
      | none => findallAux m f cs

/-- Captures of one pattern over a string (`re.findall(pattern, s, re.I)`
restricted to the four concrete patterns of the source). -/
def findallCaps (m : List Char → Option (List Char × List Char)) (s : String) :
    List String :=
  (findallAux m s.toList.length s.toList).map String.mk

/-- Captures of the four source patterns over one string, in the source's
enumeration order: `project[_-](\w+)`, `proj[_-](\w+)`, `(\w+)[_-]project`,
then `project["\']?\s*[:=]\s*["\']?(\w+)`. -/
def allPatternCaps (s : String) : List String :=
  findallCaps (tryMatchLitSepWord "project".toList) s
    ++ findallCaps (tryMatchLitSepWord "proj".toList) s
    ++ findallCaps tryMatch3 s
    ++ findallCaps tryMatch4 s

/-- References contributed by a single element in
`find_project_references`: every attribute value whose attribute name
contains `project` case-insensitively, every pattern capture from every
attribute value, and — when the stripped element text is non-empty — every
pattern capture from that text. -/
def elemRefContrib (e : XTree) : List String :=
  (e.attrs.flatMap (fun p =>
      (if occursIn "project".toList (pyLower p.1).toList then [p.2] else [])
        ++ allPatternCaps p.2))
    ++ (if pyTruthy (pyStrip e.text) then allPatternCaps (pyStrip e.text) else [])

/-- Embeds `find_project_references` (utils/xml_utils.py, lines 134-175)
with the default patterns: walk every element, accumulate the references
in a set, and return them as a sorted list. -/
def find_project_references (root : XTree) : List String :=
  pySortedList ((iterT root).foldl (fun acc e => pySetExtend acc (elemRefContrib e)) [])

/-- Definition following the words of claim C5, for comparison with the
source: the union of (a) values of attributes whose name contains
`project` case-insensitively and (b) the tokens captured from element
text by `project[_-](\w+)` case-insensitively, deduplicated. -/
def claimProjectReferences (root : XTree) : List String :=
  pySortedList ((iterT root).foldl (fun acc e => pySetExtend acc
    ((e.attrs.flatMap (fun p =>
        if occursIn "project".toList (pyLower p.1).toList then [p.2] else []))
      ++ findallCaps (tryMatchLitSepWord "project".toList) e.text)) [])

/-! The validation gate: `AutoTransformationWidget.verify_projects`
(ui/transformation.py, lines 209-249). -/

namespace AutoTransformationWidget

/-- Elements selected by `root.findall(".//philidor4_data/response/item")`:
every descendant tagged `philidor4_data`, then its children tagged
`response`, then their children tagged `item`, in document order. -/
def requirementItems (root : XTree) : List XTree :=
  (((iterF root.children).filter (fun e => e.tag == "philidor4_data")).flatMap
      (childrenNamed "response")).flatMap (childrenNamed "item")

/-- Elements selected by `root.findall(".//projects_data/projects/project")`. -/
def availableProjectElems (root : XTree) : List XTree :=
  (((iterF root.children).filter (fun e => e.tag == "projects_data")).flatMap
      (childrenNamed "projects")).flatMap (childrenNamed "project")

/-- Raw `projet` texts of the requirement items, before stripping: for each
item, the text of its first `projet` child when that text is truthy. -/
def rawRequiredTexts (root : XTree) : List String :=
  (requirementItems root).filterMap (fun it =>
    match it.children.find? (fun c => c.tag == "projet") with
    | some pe => if pyTruthy pe.text then some pe.text else none
    | none => none)

/-- Raw `id` attributes of the available project elements, before
stripping, keeping only truthy values. -/
def rawAvailableIds (root : XTree) : List String :=
  (availableProjectElems root).filterMap (fun p =>
    match p.get "id" with
    | some v => if pyTruthy v then some v else none
    | none => none)

/-- The `required_projects` set: stripped requirement texts. -/
def requiredProjects (root : XTree) : List String :=
  pySetOfList ((rawRequiredTexts root).map pyStrip)

/-- The `available_projects` set: stripped `id` attributes. -/
def availableProjects (root : XTree) : List String :=
  pySetOfList ((rawAvailableIds root).map pyStrip)

/-- Embeds `verify_projects`: the returned missing-projects list,
`list(required_projects - available_projects)`. -/
def verify_projects (root : XTree) : List String :=
  (requiredProjects root).filter (fun x => !((availableProjects root).contains x))

end AutoTransformationWidget

/-- The merged tree of a run whose primary document requires `beta` then
`alpha` (in that document order) while no project is defined. -/
def c8Tree : XTree :=
  .mk "merged_data" [] "" ""
    [.mk "philidor4_data" [] "" ""
      [.mk "response" [] "" ""
        [.mk "item" [] "" "" [.mk "projet" [] "beta" "" []],
         .mk "item" [] "" "" [.mk "projet" [] "alpha" "" []]]]]

/-- The merged tree of a run requiring `alpha` with `alpha` available. -/
def c8okTree : XTree :=
  .mk "merged_data" [] "" ""
    [.mk "philidor4_data" [] "" ""
      [.mk "response" [] "" ""
        [.mk "item" [] "" "" [.mk "projet" [] "alpha" "" []]]],
     .mk "projects_data" [] "" ""
      [.mk "projects" [] "" ""
        [.mk "project" [("id", "alpha")] "" "" []]]]

/-- The merged tree of a run whose required text and available id differ
only in surrounding whitespace. -/
def c10Tree : XTree :=
  .mk "merged_data" [] "" ""
    [.mk "philidor4_data" [] "" ""
      [.mk "response" [] "" ""
        [.mk "item" [] "" "" [.mk "projet" [] "alpha " "" []]]],
     .mk "projects_data" [] "" ""
      [.mk "projects" [] "" ""
        [.mk "project" [("id", " alpha")] "" "" []]]]

/-! The fusion step: `XMLProcessor._merge_xml_files`
(core/xml_processor.py, lines 94-145), above the parsing boundary. -/

/-- Outcome of one configuration slot on disk: the file is absent, or it
was read, cleaned and parsed successfully, or reading/parsing raised (the
`except` branch of the source, which catches both I/O and parse errors). -/
inductive SlotState where
  | absent
  | failed (msg : String)
  | parsed (tree : XTree)

/-- States of the four declared configuration slots. -/
structure DataDir where
  presentation : SlotState
  projects : SlotState
  legal : SlotState
  about : SlotState

/-- Python `not s or not s.strip()`: absent or whitespace-only text. -/
def blankStr (s : String) : Bool := pyStrip s == ""

/-- The indentation string for a nesting level: a newline plus two spaces
per level (the source's default `indent = "  "`). -/
def indentStr (level : Nat) : String :=
  String.mk ('\n' :: List.replicate (2 * level) ' ')

/-- Rewrites the tail of the last element of a sibling list to the
parent's indentation when blank (the statement after the loop in
`prettify_xml._indent`). -/
def fixLastTail (i : String) : List XTree → List XTree
  | [] => []
  | [XTree.mk t a tx tl cs] => [XTree.mk t a tx (if blankStr tl then i else tl) cs]
  | c :: cs => c :: fixLastTail i cs

mutual
/-- Embeds `prettify_xml._indent` (utils/xml_utils.py, lines 186-199) as a
pure function: fills blank text/tail fields with indentation whitespace;
tags, attributes and the child structure are untouched. -/
def pindentT : Nat → XTree → XTree
  | level, .mk t a tx tl [] =>
    .mk t a tx (if level ≠ 0 && blankStr tl then indentStr level else tl) []
  | level, .mk t a tx tl (c :: cs) =>
    let i := indentStr level
    .mk t a
      (if blankStr tx then i ++ "  " else tx)
      (if blankStr tl then i else tl)
      (fixLastTail i (pindentF (level + 1) (c :: cs)))

/-- Prettifies every element of a sibling list. -/
def pindentF : Nat → List XTree → List XTree
  | _, [] => []
  | level, c :: cs => pindentT level c :: pindentF level cs
end

/-- Embeds `prettify_xml` (utils/xml_utils.py, lines 178-201). -/
def prettify_xml (e : XTree) : XTree := pindentT 0 e

namespace XMLProcessor

/-- The `data_files` mapping of the source (section name, file name), in
its fixed enumeration order. -/
def data_files : List (String × String) :=
  [("presentation_data", "presentation.xml"), ("projects_data", "projects.xml"),
   ("legal_mentions_data", "legal_mentions.xml"), ("about_data", "about.xml")]

/-- The wrapper elements one slot contributes to the merged root: none
when the file is absent; an empty wrapper with `error` and `source_file`
attributes when reading/parsing failed; a wrapper with a `source_file`
attribute holding the parsed tree on success. -/
def sectionFor (name file : String) : SlotState → List XTree
  | .absent => []
  | .failed msg => [XTree.mk name [("error", msg), ("source_file", file)] "" "" []]
  | .parsed dr => [XTree.mk name [("source_file", file)] "" "" [dr]]

/-- Embeds `XMLProcessor._merge_xml_files`: parsing of the cleaned primary
text is abstracted as an `Except` (a primary parse error propagates and
aborts the fusion); `now` is `datetime.now().isoformat()` and `srcName`
the primary file's name.  The merged root carries one `philidor4_data`
wrapper with the primary tree, then the slot wrappers in the fixed
enumeration order, and is prettified before serialization. -/
def merge_xml_files (mainParse : Except String XTree) (now srcName : String)
    (d : DataDir) : Except String XTree :=
  match mainParse with
  | .error e => .error e
  | .ok main_root =>
    .ok (prettify_xml (XTree.mk "merged_data"
      [("generated", now), ("source_file", srcName)] "" ""
      (XTree.mk "philidor4_data" [] "" "" [main_root]
        :: (sectionFor "presentation_data" "presentation.xml" d.presentation
            ++ sectionFor "projects_data" "projects.xml" d.projects
            ++ sectionFor "legal_mentions_data" "legal_mentions.xml" d.legal
            ++ sectionFor "about_data" "about.xml" d.about))))

end XMLProcessor

/-- Number of children of `r` carrying the tag `n`. -/
def countTag (r : XTree) (n : String) : Nat :=
  (r.children.filter (fun c => c.tag == n)).length

/-- The data of a wrapper element that fusion promises: its tag, its
attributes, and how many children it holds. -/
def wrapperView (e : XTree) : String × List (String × String) × Nat :=
  (e.tag, e.attrs, e.children.length)

/-- Number of wrappers a slot contributes: none when its file is absent,
one otherwise. -/
def slotCount : SlotState → Nat
  | .absent => 0
  | .failed _ => 1
  | .parsed _ => 1

/-- Wrapper views contributed by one slot. -/
def viewsFor (name file : String) :
    SlotState → List (String × List (String × String) × Nat)
  | .absent => []
  | .failed msg => [(name, [("error", msg), ("source_file", file)], 0)]
  | .parsed _ => [(name, [("source_file", file)], 1)]

/-- Wrapper promise of one slot: when its file failed to read or parse,
the merged root holds an empty wrapper for the slot carrying the error
description and the file name; when it parsed, a wrapper carrying the file
name and one child (the parsed tree); an absent file needs nothing. -/
def slotWrapperProp (r : XTree) (name file : String) : SlotState → Prop
  | .absent => True
  | .failed msg =>
      (name, [("error", msg), ("source_file", file)], 0) ∈ r.children.map wrapperView
  | .parsed _ =>
      (name, [("source_file", file)], 1) ∈ r.children.map wrapperView

/-- The primary tree and data-directory state of the C2 counterexample:
a well-formed primary document and all four slot files absent. -/
def c2Primary : XTree := .mk "response" [] "" "" []

/-- Extracts the merged tree of a successful fusion (dummy on failure). -/
def mergedOrDefault (x : Except String XTree) : XTree :=
  match x with
  | .ok r => r
  | .error _ => .mk "" [] "" "" []

/-! The statistics extractor: `extract_xml_statistics`
(utils/xml_utils.py, lines 320-360). -/

mutual
/-- Embeds `_get_xml_depth` (utils/xml_utils.py, lines 363-377): the
current depth for a leaf, otherwise the maximum over the children one
level deeper. -/
def depthT : XTree → Nat → Nat
  | .mk _ _ _ _ [], d => d
  | .mk _ _ _ _ (c :: cs), d => depthF (c :: cs) d

/-- Maximum depth over a sibling list, each child one level deeper. -/
def depthF : List XTree → Nat → Nat
  | [], _ => 0
  | c :: cs, d => max (depthT c (d + 1)) (depthF cs d)
end

mutual
/-- Text fragments yielded by `Element.itertext()`: the element's own text
then, for each child, its fragments followed by its tail. -/
def itertextT : XTree → List String
  | .mk _ _ tx _ cs => (if tx ≠ "" then [tx] else []) ++ itertextF cs

/-- Fragments of a sibling list, with each sibling's tail. -/
def itertextF : List XTree → List String
  | [] => []
  | c :: cs => itertextT c ++ (if c.tail ≠ "" then [c.tail] else []) ++ itertextF cs
end

/-- Increments a tag's entry in an insertion-ordered counting dictionary
(`element_counts[tag] = element_counts.get(tag, 0) + 1`). -/
def bumpCount (counts : List (String × Nat)) (t : String) : List (String × Nat) :=
  match counts with
  | [] => [(t, 1)]
  | (k, v) :: rest => if k = t then (k, v + 1) :: rest else (k, v) :: bumpCount rest t

/-- The fields of the statistics dictionary built on successful parsing. -/
structure XMLStats where
  total_elements : Nat
  root_tag : String
  root_attributes : List (String × String)
  element_types : Nat
  element_counts : List (String × Nat)
  max_depth : Nat
  total_text_length : Nat
  has_cdata : Bool
  xml_size_bytes : Nat
  project_references : List String
  project_references_count : Nat

/-- The report returned by the statistics extractor: either the statistics
dictionary or a dictionary holding a single error entry. -/
inductive StatsReport where
  | error (msg : String)
  | stats (s : XMLStats)

/-- Embeds `extract_xml_statistics`: `ET.fromstring` is abstracted by the
`parseResult` argument (paired with the raw text it parses); a parse error
is caught and turned into an error-tagged report, and on success every
field is computed totally. -/
def extract_xml_statistics (xml_content : String)
    (parseResult : Except String XTree) : StatsReport :=
  match parseResult with
  | .error e => .error ("XML invalide: " ++ e)
  | .ok root =>
    let counts := (iterT root).foldl (fun m e => bumpCount m e.tag) []
    .stats
      { total_elements := (iterT root).length
        root_tag := root.tag
        root_attributes := root.attrs
        element_types := counts.length
        element_counts := counts
        max_depth := depthT root 0
        total_text_length := (String.join (itertextT root)).length
        has_cdata := occursIn "<![CDATA[".toList xml_content.toList
        xml_size_bytes := xml_content.utf8ByteSize
        project_references := find_project_references root
        project_references_count := (find_project_references root).length }

/-! Run traces of the orchestration: the widget callbacks of
ui/transformation.py and the engine call of core/transformer_engine.py,
modelled as the sequence of observable pipeline events. -/

/-- Observable events of one pipeline run. -/
inductive Ev where
  | dirsPrepared
  | cleanPrimary
  | statsExtracted
  | fuseDocs
  | mergedSaved
  | mergeCompleted
  | reportMissing (ps : List String)
  | invokeEngine
  | runXslt
  | writeReport
  | decodeEntities
  | createArchive
  | deleteMergedFile
  | reportSuccess
  | reportError (msg : String)
deriving DecidableEq

/-- Embeds `XSLTTransformationEngine.transform`
(core/transformer_engine.py, lines 32-161) at the event level, with the
external Saxon call abstracted by `xsltOk`: on success, the XSLT run, the
report write, the entity decoding and the archive (zip) creation all
happen inside this call, in that order, before it returns success; on an
engine failure the `except` branch returns failure with none of these
completed. -/
def engineTransform (xsltOk : Bool) : Bool × List Ev :=
  if xsltOk then
    (true, [.runXslt, .writeReport, .decodeEntities, .createArchive])
  else (false, [])

/-- Embeds `AutoTransformationWidget.on_transformation_finished` together
with `on_error` (ui/transformation.py, lines 305-368): on success the
merged intermediate file is deleted, then the results are reported; on
failure the error is reported and `on_error` deletes the merged file. -/
def on_transformation_finished (success : Bool) (err : String) : List Ev :=
  if success then [.deleteMergedFile, .reportSuccess]
  else [.reportError ("Erreur de transformation : " ++ err), .deleteMergedFile]

/-- Embeds `AutoTransformationWidget.start_transformation`
(ui/transformation.py, lines 277-299): checks that the stylesheet exists,
then submits the work to the engine worker; its result is handed to
`on_transformation_finished`. -/
def start_transformation (xsltExists xsltOk : Bool) (err : String) : List Ev :=
  if !xsltExists then [.reportError "Fichier XSLT introuvable", .deleteMergedFile]
  else
    .invokeEngine ::
      ((engineTransform xsltOk).2
        ++ on_transformation_finished (engineTransform xsltOk).1 err)

/-- Embeds `AutoTransformationWidget.on_merge_completed` with
`on_missing_projects` (ui/transformation.py, lines 187-275): after the
fusion completes, the projects are verified; when some are missing the
run stops there and the missing list is reported to the caller, otherwise
the transformation is started. -/
def on_merge_completed (root : XTree) (xsltExists xsltOk : Bool)
    (err : String) : List Ev :=
  if AutoTransformationWidget.verify_projects root ≠ [] then
    [.reportMissing (AutoTransformationWidget.verify_projects root)]
  else start_transformation xsltExists xsltOk err

/-- The merged tree of Scenario A: the primary requires `alpha` and
`beta`, only `alpha` is defined. -/
def c1Tree : XTree :=
  .mk "merged_data" [] "" ""
    [.mk "philidor4_data" [] "" ""
      [.mk "response" [] "" ""
        [.mk "item" [] "" "" [.mk "projet" [] "alpha" "" []],
         .mk "item" [] "" "" [.mk "projet" [] "beta" "" []]]],
     .mk "projects_data" [] "" ""
      [.mk "projects" [] "" ""
        [.mk "project" [("id", "alpha")] "" "" []]]]

/-! Input validation: `validate_xml_file` (utils/xml_utils.py, lines
13-58) and the orchestration of `XMLProcessor.process`
(core/xml_processor.py, lines 26-78). -/

/-- The state of the uploaded primary file as the validator observes it:
whether the path exists, whether it is a regular file, its size in bytes,
and the outcome of parsing it. -/
structure FileInfo where
  present : Bool
  isFile : Bool
  size : Nat
  parse : Except String XTree

/-- Embeds `validate_xml_file`: existence, regular-file and size checks in
order, then a parse attempt; parse errors are caught and reported.  An
unnamed root tag is recorded but the file is still declared valid (the
source appends to `errors` yet returns `True`).  Message texts are kept
without the interpolated path. -/
def validate_xml_file (f : FileInfo) : Bool × List String :=
  if !f.present then (false, ["Fichier non trouvé"])
  else if !f.isFile then (false, ["Le chemin ne pointe pas vers un fichier"])
  else if f.size > 100 * 1024 * 1024 then
    (false, ["Fichier trop volumineux (max 100MB)"])
  else
    match f.parse with
    | .error e => (false, ["Erreur de parsing XML: " ++ e])
    | .ok root => (true, if root.tag = "" then ["Élément racine sans nom"] else [])

/-- Embeds `XMLProcessor.process` at the event level: directories are
prepared, the uploaded file is validated — an invalid file stops the run
with an error before any reading, cleaning, statistics or fusion — then
the content is cleaned, analysed, merged and saved (`mergeOk` abstracts
whether the fusion step raises). -/
def process (f : FileInfo) (mergeOk : Bool) : List Ev :=
  .dirsPrepared ::
    (if !(validate_xml_file f).1 then
      [.reportError ("Fichier XML invalide: "
        ++ String.intercalate ", " (validate_xml_file f).2)]
    else
      .cleanPrimary :: .statsExtracted ::
        (if mergeOk then [.fuseDocs, .mergedSaved, .mergeCompleted]
         else [.reportError "Erreur lors du traitement"]))

theorem pyReplaceAux_eq_self (pat rep : List Char) (f : Nat) :
    ∀ s : List Char, occursIn pat s = false → pyReplaceAux pat rep f s = s := by
  induction f with
  | zero => intro s _; rfl
  | succ f ih =>
    intro s h
    match s with
    | [] => rfl
    | c :: cs =>
      rw [occursIn] at h
      have h2 := Bool.or_eq_false_iff.mp h
      rw [pyReplaceAux, if_neg (by simp [h2.1]), ih cs h2.2]

theorem mk_toList (s : String) : String.mk s.toList = s := by
  cases s; rfl

theorem pyReplace_eq_self (s pat rep : String)
    (h : occursIn pat.toList s.toList = false) : pyReplace s pat rep = s := by
  unfold pyReplace
  by_cases hp : pat.toList = []
  · rw [if_pos hp]
  · rw [if_neg hp, pyReplaceAux_eq_self pat.toList rep.toList _ _ h, mk_toList]

/-- C4. The document cleaner is NOT idempotent as claimed: deleting the
empty `nomsFonctions` idiom can splice the surrounding text into a brand
new `<Anonyme>` occurrence, which a second cleaning pass then rewrites.
The concrete input below cleans to `<Anonyme>`, and cleaning again yields
`<item key="Anonyme">`. -/
theorem C4_clean_not_idempotent :
    XMLProcessor.clean_xml_content
        (XMLProcessor.clean_xml_content
          "<Anonym<nomsFonctions><item key=\"\"></item></nomsFonctions>e>")
      ≠ XMLProcessor.clean_xml_content
          "<Anonym<nomsFonctions><item key=\"\"></item></nomsFonctions>e>" := by
  decide

/-- C4 (amended). The cleaner is idempotent on every input whose cleaned
form contains no further occurrence of the three substituted patterns: if
`clean s` contains neither `<Anonyme>` nor `</Anonyme>` nor the empty
`nomsFonctions` idiom, then `clean (clean s) = clean s`. -/
theorem C4_clean_idempotent_amended (s : String)
    (h1 : occursIn "<Anonyme>".toList (XMLProcessor.clean_xml_content s).toList = false)
    (h2 : occursIn "</Anonyme>".toList (XMLProcessor.clean_xml_content s).toList = false)
    (h3 : occursIn "<nomsFonctions><item key=\"\"></item></nomsFonctions>".toList
            (XMLProcessor.clean_xml_content s).toList = false) :
    XMLProcessor.clean_xml_content (XMLProcessor.clean_xml_content s)
      = XMLProcessor.clean_xml_content s := by
  set t := XMLProcessor.clean_xml_content s with ht
  show XMLProcessor.clean_xml_content t = t
  unfold XMLProcessor.clean_xml_content
  rw [pyReplace_eq_self _ _ _ h1, pyReplace_eq_self _ _ _ h2,
    pyReplace_eq_self _ _ _ h3]

/-- C4 witness: a realistic already-clean text (the cleaned form of an
anonymous-item document) on which the amended idempotence theorem applies. -/
theorem C4_clean_idempotent_amended_witness :
    XMLProcessor.clean_xml_content
        (XMLProcessor.clean_xml_content "<Anonyme>x</Anonyme>")
      = XMLProcessor.clean_xml_content "<Anonyme>x</Anonyme>" :=
  C4_clean_idempotent_amended "<Anonyme>x</Anonyme>"
    (by decide) (by decide) (by decide)

theorem unescapeAux_no_amp (f : Nat) :
    ∀ s : List Char, s.contains '&' = false → unescapeAux f s = s := by
  induction f with
  | zero => intro s _; rfl
  | succ f ih =>
    intro s h
    match s with
    | [] => rfl
    | c :: cs =>
      rw [List.contains_cons] at h
      have h2 := Bool.or_eq_false_iff.mp h
      have hc : ¬ c = '&' := by
        intro hc; rw [hc] at h2; simp at h2
      rw [unescapeAux, if_neg hc, ih cs h2.2]

theorem html_unescape_no_amp (s : String) (h : s.toList.contains '&' = false) :
    html_unescape s = s := by
  unfold html_unescape
  rw [unescapeAux_no_amp _ _ h, mk_toList]

/-- C6. The packaging entity-normalization is NOT a no-op on every file
without double-encoded entities: the text `&amp;` contains only a single
encoding of the ampersand (no double encoding), yet the two unescape
passes rewrite it to `&`. -/
theorem C6_decode_changes_single_encoded :
    hasDoubleEncoding "&amp;" = false
      ∧ XSLTTransformationEngine.decode_html_entities "&amp;" ≠ "&amp;" := by
  constructor
  · decide
  · decide

/-- C6 (amended). The packaging entity-normalization applies exactly two
unescape passes: a doubly-encoded entity becomes the correct single
character (the twice-escaped `é` decodes to `é`), and a text containing no
ampersand at all (hence no entity reference of any kind) is left
unchanged.  Texts with singly-encoded entities are decoded once, so they
do change. -/
theorem C6_decode_amended :
    XSLTTransformationEngine.decode_html_entities "&amp;#xE9;" = "é"
      ∧ ∀ s : String, s.toList.contains '&' = false →
          XSLTTransformationEngine.decode_html_entities s = s := by
  constructor
  · decide
  · intro s h
    unfold XSLTTransformationEngine.decode_html_entities
    rw [html_unescape_no_amp s h, html_unescape_no_amp s h]

/-- C6 witness: the amended theorem applied to a concrete ampersand-free
text. -/
theorem C6_decode_amended_witness :
    XSLTTransformationEngine.decode_html_entities "projet alpha" = "projet alpha" :=
  C6_decode_amended.2 "projet alpha" (by decide)

theorem mem_pySetAdd (acc : List String) (x y : String) :
    y ∈ pySetAdd acc x ↔ y ∈ acc ∨ y = x := by
  unfold pySetAdd
  by_cases h : x ∈ acc
  · rw [if_pos h]
    constructor
    · exact Or.inl
    · rintro (hy | rfl)
      · exact hy
      · exact h
  · rw [if_neg h, List.mem_append, List.mem_singleton]

theorem nodup_pySetAdd (acc : List String) (x : String) (h : acc.Nodup) :
    (pySetAdd acc x).Nodup := by
  unfold pySetAdd
  by_cases hx : x ∈ acc
  · rw [if_pos hx]; exact h
  · rw [if_neg hx]
    refine List.Nodup.append h (List.nodup_singleton x) ?_
    intro a ha hax
    rw [List.mem_singleton] at hax
    exact hx (hax ▸ ha)

theorem mem_pySetExtend (xs : List String) :
    ∀ acc y, y ∈ pySetExtend acc xs ↔ y ∈ acc ∨ y ∈ xs := by
  induction xs with
  | nil => intro acc y; simp [pySetExtend]
  | cons x xs ih =>
    intro acc y
    unfold pySetExtend at *
    rw [List.foldl_cons, ih (pySetAdd acc x) y, mem_pySetAdd, List.mem_cons]
    tauto

theorem nodup_pySetExtend (xs : List String) :
    ∀ acc, acc.Nodup → (pySetExtend acc xs).Nodup := by
  induction xs with
  | nil => intro acc h; exact h
  | cons x xs ih =>
    intro acc h
    unfold pySetExtend at *
    rw [List.foldl_cons]
    exact ih (pySetAdd acc x) (nodup_pySetAdd acc x h)

theorem mem_pySetOfList (xs : List String) (y : String) :
    y ∈ pySetOfList xs ↔ y ∈ xs := by
  unfold pySetOfList
  rw [show xs.foldl pySetAdd [] = pySetExtend [] xs from rfl, mem_pySetExtend]
  simp

theorem nodup_pySetOfList (xs : List String) : (pySetOfList xs).Nodup :=
  nodup_pySetExtend xs [] List.nodup_nil

theorem insertSorted_perm (x : String) (l : List String) :
    List.Perm (insertSorted x l) (x :: l) := by
  induction l with
  | nil => exact List.Perm.refl _
  | cons y ys ih =>
    unfold insertSorted
    by_cases h : strLtPy x y = true
    · rw [if_pos h]
    · rw [if_neg h]
      exact List.Perm.trans (List.Perm.cons y ih) (List.Perm.swap x y ys)

theorem pySortedList_perm (l : List String) :
    List.Perm (pySortedList l) l := by
  induction l with
  | nil => exact List.Perm.refl _
  | cons x xs ih =>
    unfold pySortedList at *
    rw [List.foldr_cons]
    exact List.Perm.trans (insertSorted_perm x (xs.foldr insertSorted []))
      (List.Perm.cons x ih)

theorem mem_pySortedList (l : List String) (y : String) :
    y ∈ pySortedList l ↔ y ∈ l :=
  (pySortedList_perm l).mem_iff

theorem nodup_pySortedList (l : List String) (h : l.Nodup) :
    (pySortedList l).Nodup :=
  ((pySortedList_perm l).nodup_iff).mpr h

/-- C5. The extractor collects strictly more than the claim states: on a
document whose only content is the text `proj_alpha`, the claim's rules
collect nothing, but the source's second pattern `proj[_-](\w+)` captures
`alpha`. -/
theorem C5_extraction_counterexample :
    find_project_references (.mk "doc" [] "proj_alpha" "" []) = ["alpha"]
      ∧ claimProjectReferences (.mk "doc" [] "proj_alpha" "" []) = [] := by
  constructor
  · decide
  · decide

theorem mem_foldl_pySetExtend {α : Type} (f : α → List String) (l : List α) :
    ∀ (acc : List String) (y : String),
      y ∈ l.foldl (fun acc e => pySetExtend acc (f e)) acc
        ↔ y ∈ acc ∨ ∃ e ∈ l, y ∈ f e := by
  induction l with
  | nil => intro acc y; simp
  | cons e l ih =>
    intro acc y
    rw [List.foldl_cons, ih (pySetExtend acc (f e)) y, mem_pySetExtend]
    simp only [List.mem_cons]
    constructor
    · rintro ((h | h) | ⟨e1, he1, hy⟩)
      · exact Or.inl h
      · exact Or.inr ⟨e, Or.inl rfl, h⟩
      · exact Or.inr ⟨e1, Or.inr he1, hy⟩
    · rintro (h | ⟨e1, (rfl | he1), hy⟩)
      · exact Or.inl (Or.inl h)
      · exact Or.inl (Or.inr hy)
      · exact Or.inr ⟨e1, he1, hy⟩

theorem nodup_foldl_pySetExtend {α : Type} (f : α → List String) (l : List α) :
    ∀ acc : List String, acc.Nodup →
      (l.foldl (fun acc e => pySetExtend acc (f e)) acc).Nodup := by
  induction l with
  | nil => intro acc h; exact h
  | cons e l ih =>
    intro acc h
    rw [List.foldl_cons]
    exact ih (pySetExtend acc (f e)) (nodup_pySetExtend (f e) acc h)

theorem mem_ite_singleton (c : Prop) [Decidable c] (v y : String) :
    y ∈ (if c then [v] else []) ↔ c ∧ y = v := by
  by_cases h : c
  · rw [if_pos h, List.mem_singleton]; tauto
  · rw [if_neg h]; simp [h]

/-- C5 (amended). The extracted reference list is duplicate-free and
contains exactly the union over all elements of: (a) the values of
attributes whose name contains `project` case-insensitively, (b) the
captures of the four source patterns applied to every attribute value,
and (c) the captures of the four source patterns applied to the stripped
element text when that text is non-empty; no captured value is
case-folded. -/
theorem C5_extraction_amended (root : XTree) :
    (find_project_references root).Nodup
      ∧ ∀ y, y ∈ find_project_references root ↔
          ∃ e ∈ iterT root,
            (∃ p ∈ e.attrs,
                (occursIn "project".toList (pyLower p.1).toList = true ∧ y = p.2)
                  ∨ y ∈ allPatternCaps p.2)
              ∨ (pyTruthy (pyStrip e.text) = true ∧ y ∈ allPatternCaps (pyStrip e.text)) := by
  constructor
  · exact nodup_pySortedList _ (nodup_foldl_pySetExtend elemRefContrib (iterT root) [] List.nodup_nil)
  · intro y
    rw [find_project_references, mem_pySortedList,
      mem_foldl_pySetExtend elemRefContrib (iterT root) [] y]
    simp only [List.not_mem_nil, false_or]
    constructor
    · rintro ⟨e, he, hy⟩
      refine ⟨e, he, ?_⟩
      unfold elemRefContrib at hy
      rw [List.mem_append] at hy
      rcases hy with hy | hy
      · rw [List.mem_flatMap] at hy
        obtain ⟨p, hp, hy⟩ := hy
        rw [List.mem_append, mem_ite_singleton] at hy
        left
        refine ⟨p, hp, ?_⟩
        rcases hy with ⟨hc, rfl⟩ | hy
        · exact Or.inl ⟨by exact_mod_cast hc, rfl⟩
        · exact Or.inr hy
      · right
        by_cases hc : pyTruthy (pyStrip e.text) = true
        · rw [if_pos (by exact_mod_cast hc)] at hy
          exact ⟨hc, hy⟩
        · rw [if_neg (by simpa using hc)] at hy
          exact absurd hy (List.not_mem_nil y)
    · rintro ⟨e, he, hy⟩
      refine ⟨e, he, ?_⟩
      unfold elemRefContrib
      rw [List.mem_append]
      rcases hy with ⟨p, hp, hy⟩ | ⟨hc, hy⟩
      · left
        rw [List.mem_flatMap]
        refine ⟨p, hp, ?_⟩
        rw [List.mem_append, mem_ite_singleton]
        rcases hy with ⟨hc, rfl⟩ | hy
        · exact Or.inl ⟨by exact_mod_cast hc, rfl⟩
        · exact Or.inr hy
      · right
        rw [if_pos (by exact_mod_cast hc)]
        exact hy

/-- C8. The gate does compute `missing = required - available`, but the
missing identifiers handed back to the caller are NOT sorted: the source
returns `list(missing_projects)` without sorting (only the displayed
status text is sorted).  With requirements `beta`, `alpha` in document
order and nothing available, the returned list is `[beta, alpha]`,
which is not in ascending order. -/
theorem C8_gate_counterexample :
    AutoTransformationWidget.verify_projects c8Tree = ["beta", "alpha"]
      ∧ isSortedAsc (AutoTransformationWidget.verify_projects c8Tree) = false := by
  constructor
  · decide
  · decide

/-- C8 (amended). The validation gate is a pure function of the two
identifier sets: the returned missing list is duplicate-free, its members
are exactly the required identifiers (stripped `projet` texts under
`philidor4_data/response/item`) that are not available (stripped project
`id` attributes under `projects_data/projects/project`), and whenever
available is a superset of required the gate returns no missing
identifier, letting the pipeline proceed.  The returned list is
deduplicated but in no guaranteed order: the source does not sort it. -/
theorem C8_gate_amended (root : XTree) :
    (AutoTransformationWidget.verify_projects root).Nodup
      ∧ (∀ x, x ∈ AutoTransformationWidget.verify_projects root ↔
          x ∈ AutoTransformationWidget.requiredProjects root
            ∧ x ∉ AutoTransformationWidget.availableProjects root)
      ∧ ((∀ x ∈ AutoTransformationWidget.requiredProjects root,
            x ∈ AutoTransformationWidget.availableProjects root) →
          AutoTransformationWidget.verify_projects root = []) := by
  refine ⟨?_, ?_, ?_⟩
  · exact List.Nodup.filter _ (nodup_pySetOfList _)
  · intro x
    rw [AutoTransformationWidget.verify_projects, List.mem_filter]
    simp
  · intro h
    rw [AutoTransformationWidget.verify_projects, List.filter_eq_nil_iff]
    intro x hx
    simp only [Bool.not_eq_true', Bool.not_eq_false]
    exact List.elem_eq_true_of_mem (h x hx)

/-- C8 witness: the amended theorem applied to a run whose available set
covers the required set; the gate returns the empty missing list. -/
theorem C8_gate_amended_witness :
    AutoTransformationWidget.verify_projects c8okTree = [] :=
  (C8_gate_amended c8okTree).2.2 (by decide)

/-- C10. The gate comparison is insensitive to leading and trailing
whitespace: whenever a raw required `projet` text and a raw available
project `id` attribute agree after stripping, that requirement is never
reported missing — such whitespace alone cannot cause a gate failure. -/
theorem C10_gate_strips_whitespace (root : XTree) (t u : String)
    (ht : t ∈ AutoTransformationWidget.rawRequiredTexts root)
    (hu : u ∈ AutoTransformationWidget.rawAvailableIds root)
    (heq : pyStrip t = pyStrip u) :
    pyStrip t ∉ AutoTransformationWidget.verify_projects root := by
  intro hmem
  rw [AutoTransformationWidget.verify_projects, List.mem_filter] at hmem
  have havail : pyStrip t ∈ AutoTransformationWidget.availableProjects root := by
    rw [AutoTransformationWidget.availableProjects, mem_pySetOfList, heq]
    exact List.mem_map_of_mem pyStrip hu
  have := hmem.2
  rw [Bool.not_eq_true', ← Bool.not_eq_true] at this
  exact this (List.elem_eq_true_of_mem havail)

/-- C10 witness: required text `alpha ` (trailing blank) matches available
id ` alpha` (leading blank); the identifier is not reported missing. -/
theorem C10_gate_strips_whitespace_witness :
    pyStrip "alpha " ∉ AutoTransformationWidget.verify_projects c10Tree :=
  C10_gate_strips_whitespace c10Tree "alpha " " alpha"
    (by decide) (by decide) (by decide)

theorem fixLastTail_wrapperView (i : String) :
    ∀ cs : List XTree, (fixLastTail i cs).map wrapperView = cs.map wrapperView := by
  intro cs
  induction cs with
  | nil => rfl
  | cons c cs ih =>
    match c, cs with
    | .mk t a tx tl k, [] => rfl
    | .mk t a tx tl k, c2 :: cs2 =>
      show wrapperView _ :: (fixLastTail i (c2 :: cs2)).map wrapperView = _
      rw [ih]
      rfl

theorem fixLastTail_length (i : String) (xs : List XTree) :
    (fixLastTail i xs).length = xs.length := by
  have := congrArg List.length (fixLastTail_wrapperView i xs)
  rwa [List.length_map, List.length_map] at this

theorem pindentF_length (l : Nat) (xs : List XTree) :
    (pindentF l xs).length = xs.length := by
  induction xs with
  | nil => rfl
  | cons x xs ih =>
    show (pindentT l x :: pindentF l xs).length = _
    rw [List.length_cons, ih, List.length_cons]

theorem pindentT_wrapperView (l : Nat) (e : XTree) :
    wrapperView (pindentT l e) = wrapperView e := by
  match e with
  | .mk t a tx tl [] => rfl
  | .mk t a tx tl (c :: cs) =>
    show (t, a, (fixLastTail _ (pindentF (l + 1) (c :: cs))).length)
        = (t, a, (c :: cs).length)
    rw [fixLastTail_length, pindentF_length]

theorem pindentF_wrapperView (l : Nat) (cs : List XTree) :
    (pindentF l cs).map wrapperView = cs.map wrapperView := by
  induction cs with
  | nil => rfl
  | cons c cs ih =>
    show wrapperView (pindentT l c) :: (pindentF l cs).map wrapperView = _
    rw [ih, pindentT_wrapperView]
    rfl

theorem prettify_children_wrapperView (e : XTree) :
    (prettify_xml e).children.map wrapperView = e.children.map wrapperView := by
  match e with
  | .mk t a tx tl [] => rfl
  | .mk t a tx tl (c :: cs) =>
    show (fixLastTail _ (pindentF 1 (c :: cs))).map wrapperView = _
    rw [fixLastTail_wrapperView, pindentF_wrapperView]
    rfl

theorem sectionFor_views (name file : String) (st : SlotState) :
    (XMLProcessor.sectionFor name file st).map wrapperView = viewsFor name file st := by
  cases st <;> rfl

theorem countTag_by_views (r : XTree) (n : String) :
    countTag r n = ((r.children.map wrapperView).filter (fun w => w.1 == n)).length := by
  unfold countTag
  rw [List.filter_map, List.length_map]
  rfl

theorem viewsFor_count_ne (name file n : String) (st : SlotState) (h : (name == n) = false) :
    ((viewsFor name file st).filter (fun w => w.1 == n)).length = 0 := by
  cases st <;> simp [viewsFor, h]

theorem viewsFor_count_self (name file : String) (st : SlotState) :
    ((viewsFor name file st).filter (fun w => w.1 == name)).length = slotCount st := by
  cases st <;> simp [viewsFor, slotCount]

theorem merged_views (m : XTree) (now src : String) (d : DataDir) :
    ∃ r, XMLProcessor.merge_xml_files (.ok m) now src d = .ok r
      ∧ r.children.map wrapperView
          = ("philidor4_data", [], 1)
              :: (viewsFor "presentation_data" "presentation.xml" d.presentation
                  ++ viewsFor "projects_data" "projects.xml" d.projects
                  ++ viewsFor "legal_mentions_data" "legal_mentions.xml" d.legal
                  ++ viewsFor "about_data" "about.xml" d.about) := by
  refine ⟨_, rfl, ?_⟩
  rw [prettify_children_wrapperView]
  show wrapperView (XTree.mk "philidor4_data" [] "" "" [m])
      :: (XMLProcessor.sectionFor "presentation_data" "presentation.xml" d.presentation
          ++ XMLProcessor.sectionFor "projects_data" "projects.xml" d.projects
          ++ XMLProcessor.sectionFor "legal_mentions_data" "legal_mentions.xml" d.legal
          ++ XMLProcessor.sectionFor "about_data" "about.xml" d.about).map wrapperView = _
  rw [List.map_append, List.map_append, List.map_append,
    sectionFor_views, sectionFor_views, sectionFor_views, sectionFor_views]
  rfl

/-- C2. Fusion does NOT emit one wrapper per declared slot when a slot's
file is absent: with a well-formed primary and all four configuration
files missing, fusion succeeds but the merged root contains no
`presentation_data` wrapper at all (the source only appends a wrapper
when `file_path.exists()`). -/
theorem C2_fusion_counterexample :
    (XMLProcessor.merge_xml_files (.ok c2Primary) "t0" "main.xml"
        ⟨.absent, .absent, .absent, .absent⟩).isOk = true
      ∧ countTag (mergedOrDefault (XMLProcessor.merge_xml_files (.ok c2Primary)
          "t0" "main.xml" ⟨.absent, .absent, .absent, .absent⟩))
          "presentation_data" = 0 := by
  constructor
  · decide
  · decide

/-- C2 (amended). For every well-formed primary document and every
assignment of the four declared slots to a parsed file, a failed file or
no file at all, fusion succeeds and the fused root contains exactly one
primary wrapper, exactly one wrapper per slot whose file exists (carrying
the slot's parsed content, or an error attribute with the failure
description and no content), and no wrapper for an absent slot file. -/
theorem C2_fusion_amended (m : XTree) (now src : String) (d : DataDir) :
    ∃ r, XMLProcessor.merge_xml_files (.ok m) now src d = .ok r
      ∧ countTag r "philidor4_data" = 1
      ∧ countTag r "presentation_data" = slotCount d.presentation
      ∧ countTag r "projects_data" = slotCount d.projects
      ∧ countTag r "legal_mentions_data" = slotCount d.legal
      ∧ countTag r "about_data" = slotCount d.about
      ∧ slotWrapperProp r "presentation_data" "presentation.xml" d.presentation
      ∧ slotWrapperProp r "projects_data" "projects.xml" d.projects
      ∧ slotWrapperProp r "legal_mentions_data" "legal_mentions.xml" d.legal
      ∧ slotWrapperProp r "about_data" "about.xml" d.about := by
  obtain ⟨r, hr, hv⟩ := merged_views m now src d
  have hcount : ∀ n : String, countTag r n
      = ((("philidor4_data", ([] : List (String × String)), 1)
            :: (viewsFor "presentation_data" "presentation.xml" d.presentation
                ++ viewsFor "projects_data" "projects.xml" d.projects
                ++ viewsFor "legal_mentions_data" "legal_mentions.xml" d.legal
                ++ viewsFor "about_data" "about.xml" d.about)).filter
          (fun w => w.1 == n)).length := by
    intro n
    rw [countTag_by_views, hv]
  refine ⟨r, hr, ?_, ?_, ?_, ?_, ?_, ?_, ?_, ?_, ?_⟩
  · rw [hcount, List.filter_cons, if_pos (by decide)]
    simp only [List.filter_append, List.length_cons, List.length_append]
    rw [viewsFor_count_ne "presentation_data" "presentation.xml" _ _ (by decide),
      viewsFor_count_ne "projects_data" "projects.xml" _ _ (by decide),
      viewsFor_count_ne "legal_mentions_data" "legal_mentions.xml" _ _ (by decide),
      viewsFor_count_ne "about_data" "about.xml" _ _ (by decide)]
  · rw [hcount, List.filter_cons, if_neg (by decide)]
    simp only [List.filter_append, List.length_append]
    rw [viewsFor_count_self,
      viewsFor_count_ne "projects_data" "projects.xml" _ _ (by decide),
      viewsFor_count_ne "legal_mentions_data" "legal_mentions.xml" _ _ (by decide),
      viewsFor_count_ne "about_data" "about.xml" _ _ (by decide)]
    omega
  · rw [hcount, List.filter_cons, if_neg (by decide)]
    simp only [List.filter_append, List.length_append]
    rw [viewsFor_count_self,
      viewsFor_count_ne "presentation_data" "presentation.xml" _ _ (by decide),
      viewsFor_count_ne "legal_mentions_data" "legal_mentions.xml" _ _ (by decide),
      viewsFor_count_ne "about_data" "about.xml" _ _ (by decide)]
    omega
  · rw [hcount, List.filter_cons, if_neg (by decide)]
    simp only [List.filter_append, List.length_append]
    rw [viewsFor_count_self,
      viewsFor_count_ne "presentation_data" "presentation.xml" _ _ (by decide),
      viewsFor_count_ne "projects_data" "projects.xml" _ _ (by decide),
      viewsFor_count_ne "about_data" "about.xml" _ _ (by decide)]
    omega
  · rw [hcount, List.filter_cons, if_neg (by decide)]
    simp only [List.filter_append, List.length_append]
    rw [viewsFor_count_self,
      viewsFor_count_ne "presentation_data" "presentation.xml" _ _ (by decide),
      viewsFor_count_ne "projects_data" "projects.xml" _ _ (by decide),
      viewsFor_count_ne "legal_mentions_data" "legal_mentions.xml" _ _ (by decide)]
    omega
  · cases hs : d.presentation with
    | absent => exact trivial
    | failed msg => rw [slotWrapperProp, hv, hs]; simp [viewsFor]
    | parsed dr => rw [slotWrapperProp, hv, hs]; simp [viewsFor]
  · cases hs : d.projects with
    | absent => exact trivial
    | failed msg => rw [slotWrapperProp, hv, hs]; simp [viewsFor]
    | parsed dr => rw [slotWrapperProp, hv, hs]; simp [viewsFor]
  · cases hs : d.legal with
    | absent => exact trivial
    | failed msg => rw [slotWrapperProp, hv, hs]; simp [viewsFor]
    | parsed dr => rw [slotWrapperProp, hv, hs]; simp [viewsFor]
  · cases hs : d.about with
    | absent => exact trivial
    | failed msg => rw [slotWrapperProp, hv, hs]; simp [viewsFor]
    | parsed dr => rw [slotWrapperProp, hv, hs]; simp [viewsFor]

/-- C3. The statistics extractor always terminates with a report and never
propagates a parse failure: whenever the input fails to parse the result
is the error-tagged report, and whenever it parses the result is a full
statistics report.  Totality of the Lean embedding (including the
recursive depth computation and the reference extraction) models the
absence of uncaught exceptions. -/
theorem C3_stats_never_raises (xml_content : String)
    (parseResult : Except String XTree) :
    (∀ e, parseResult = .error e →
        extract_xml_statistics xml_content parseResult
          = .error ("XML invalide: " ++ e))
      ∧ ∀ root, parseResult = .ok root →
          ∃ st, extract_xml_statistics xml_content parseResult = .stats st := by
  constructor
  · intro e he
    rw [he]
    rfl
  · intro root hr
    rw [hr]
    exact ⟨_, rfl⟩

/-- C3 witness: a concrete unparseable input yields the error-tagged
report. -/
theorem C3_stats_never_raises_witness :
    extract_xml_statistics "<a" (.error "unclosed token")
      = .error ("XML invalide: " ++ "unclosed token") :=
  (C3_stats_never_raises "<a" (.error "unclosed token")).1 "unclosed token" rfl

/-- C1. Whenever the computed missing set is non-empty, the run stops at
validation: the missing identifiers are reported to the caller, the
transformation engine is never invoked and no archive is created. -/
theorem C1_validation_gate (root : XTree) (xsltExists xsltOk : Bool) (err : String)
    (h : AutoTransformationWidget.verify_projects root ≠ []) :
    on_merge_completed root xsltExists xsltOk err
        = [.reportMissing (AutoTransformationWidget.verify_projects root)]
      ∧ Ev.invokeEngine ∉ on_merge_completed root xsltExists xsltOk err
      ∧ Ev.createArchive ∉ on_merge_completed root xsltExists xsltOk err := by
  have htr : on_merge_completed root xsltExists xsltOk err
      = [.reportMissing (AutoTransformationWidget.verify_projects root)] := by
    rw [on_merge_completed, if_pos h]
  refine ⟨htr, ?_, ?_⟩
  · rw [htr]
    intro hm
    rw [List.mem_singleton] at hm
    exact Ev.noConfusion hm
  · rw [htr]
    intro hm
    rw [List.mem_singleton] at hm
    exact Ev.noConfusion hm

/-- C1 witness: Scenario A stops at validation with missing `beta`. -/
theorem C1_validation_gate_witness :
    on_merge_completed c1Tree true true "boom"
        = [.reportMissing (AutoTransformationWidget.verify_projects c1Tree)]
      ∧ Ev.invokeEngine ∉ on_merge_completed c1Tree true true "boom"
      ∧ Ev.createArchive ∉ on_merge_completed c1Tree true true "boom" :=
  C1_validation_gate c1Tree true true "boom" (by decide)

/-- C7. In a successful run the fused intermediate is NOT deleted before
packaging: the archive is created inside the engine call, and the widget
only deletes the merged file afterwards, when the success result arrives.
In the concrete successful run below the archive-creation event precedes
the deletion event. -/
theorem C7_delete_counterexample :
    Ev.reportSuccess ∈ on_merge_completed c8okTree true true "e"
      ∧ Ev.createArchive ∈ on_merge_completed c8okTree true true "e"
      ∧ Ev.deleteMergedFile ∈ on_merge_completed c8okTree true true "e"
      ∧ (on_merge_completed c8okTree true true "e").indexOf Ev.createArchive
          < (on_merge_completed c8okTree true true "e").indexOf Ev.deleteMergedFile := by
  refine ⟨?_, ?_, ?_, ?_⟩ <;> decide

/-- C7 (amended). In every run whose transformation step succeeds, the
serialized fused-document intermediate is deleted immediately after the
transformation-and-packaging call returns success — after the archive is
created, and before the success is reported to the caller. -/
theorem C7_delete_amended (root : XTree) (err : String)
    (h : AutoTransformationWidget.verify_projects root = []) :
    on_merge_completed root true true err
      = [.invokeEngine, .runXslt, .writeReport, .decodeEntities,
         .createArchive, .deleteMergedFile, .reportSuccess] := by
  rw [on_merge_completed, if_neg (by simp [h])]
  rfl

/-- C7 witness: the amended deletion ordering on a concrete passing run. -/
theorem C7_delete_amended_witness :
    on_merge_completed c8okTree true true "e"
      = [.invokeEngine, .runXslt, .writeReport, .decodeEntities,
         .createArchive, .deleteMergedFile, .reportSuccess] :=
  C7_delete_amended c8okTree "e" (by decide)

/-- C9. Any primary input file larger than 100 MB (100 * 1024 * 1024
bytes) fails validation with the size error before any cleaning or
fusion: the run stops with an error report and neither the cleaning nor
the fusion event ever occurs. -/
theorem C9_size_limit (f : FileInfo) (mergeOk : Bool)
    (hp : f.present = true) (hf : f.isFile = true)
    (hs : f.size > 100 * 1024 * 1024) :
    validate_xml_file f = (false, ["Fichier trop volumineux (max 100MB)"])
      ∧ process f mergeOk
          = [.dirsPrepared,
             .reportError "Fichier XML invalide: Fichier trop volumineux (max 100MB)"]
      ∧ Ev.cleanPrimary ∉ process f mergeOk
      ∧ Ev.fuseDocs ∉ process f mergeOk := by
  have hv : validate_xml_file f = (false, ["Fichier trop volumineux (max 100MB)"]) := by
    rw [validate_xml_file, hp, hf, if_neg (by decide), if_neg (by decide), if_pos hs]
  have hpr : process f mergeOk
      = [.dirsPrepared,
         .reportError "Fichier XML invalide: Fichier trop volumineux (max 100MB)"] := by
    rw [process, hv]
    rfl
  refine ⟨hv, hpr, ?_, ?_⟩
  · rw [hpr]
    intro hm
    rcases List.mem_cons.mp hm with h1 | h1
    · exact Ev.noConfusion h1
    · rw [List.mem_singleton] at h1
      exact Ev.noConfusion h1
  · rw [hpr]
    intro hm
    rcases List.mem_cons.mp hm with h1 | h1
    · exact Ev.noConfusion h1
    · rw [List.mem_singleton] at h1
      exact Ev.noConfusion h1

/-- C9 witness: a file one byte over the limit is rejected before
cleaning and fusion. -/
theorem C9_size_limit_witness :
    validate_xml_file ⟨true, true, 104857601, .ok (.mk "r" [] "" "" [])⟩
        = (false, ["Fichier trop volumineux (max 100MB)"])
      ∧ process ⟨true, true, 104857601, .ok (.mk "r" [] "" "" [])⟩ true
          = [.dirsPrepared,
             .reportError "Fichier XML invalide: Fichier trop volumineux (max 100MB)"]
      ∧ Ev.cleanPrimary ∉ process ⟨true, true, 104857601, .ok (.mk "r" [] "" "" [])⟩ true
      ∧ Ev.fuseDocs ∉ process ⟨true, true, 104857601, .ok (.mk "r" [] "" "" [])⟩ true :=
  C9_size_limit ⟨true, true, 104857601, .ok (.mk "r" [] "" "" [])⟩ true
    rfl rfl (by decide)

end Philidor
